import Mathlib

/-!
Verification of the eureka client orchestration core (src/eureka/client.go)
of gopor/go-eureka-client.

The Go code is shallowly embedded: pure fragments become Lean functions,
the background loops become step functions over explicit state, and every
network collaborator (the REST api handle, the DNS/zone endpoint resolver)
becomes an oracle parameter supplying the outcome of each external call,
following the collaborator contracts of the design document.

The rotation cursor is a `go.uber.org/atomic` Int32 in the source; its
value is embedded as an `Int` kept in two's-complement 32-bit range by
`wrap32`, and Go's truncated remainder `%` is embedded as `goMod`.
-/

set_option autoImplicit false

namespace Eureka

/-- Go `int32` two's-complement wrap-around: normalises an integer into
`[-2^31, 2^31)`, the value range of the atomic cursor `pickServerUrlIdx`. -/
def wrap32 (x : Int) : Int := (x + 2 ^ 31) % 2 ^ 32 - 2 ^ 31

/-- `pickServerUrlIdx.Inc()` / `atomic.Int32.Inc`: add one with `int32`
wrap-around (Go integer overflow wraps silently). -/
def inc32 (c : Int) : Int := wrap32 (c + 1)

/-- Go's `%` on integers: truncated remainder, the result takes the sign of
the dividend (for a positive divisor).  In particular a negative dividend
yields a result in `(-b, 0]`. -/
def goMod (a b : Int) : Int := if 0 ≤ a then a % b else -((-a) % b)

/-- Result of a Go expression that either yields a value, signals
`ok = false` (the `("", false)` returns in the source), or panics
(out-of-range slice index). -/
inductive GoResult (α : Type) where
  | ok (a : α)
  | notOk
  | outOfRange
  deriving DecidableEq, Repr

/-- Go slice indexing `xs[i]` with `i : int`: the value when
`0 ≤ i < len(xs)`, a runtime panic otherwise. -/
def goIndex {α : Type} (xs : List α) (i : Int) : GoResult α :=
  if h : 0 ≤ i ∧ i < (xs.length : Int) then
    .ok (xs.get ⟨i.toNat, by omega⟩)
  else
    .outOfRange

/-- Instance status values (`STATUS_*` string constants of the repository;
the defining file is outside `src/`, the spec gives the enum
{STARTING, UP, DOWN, OUT_OF_SERVICE, UNKNOWN}). -/
inductive StatusType where
  | STARTING
  | UP
  | DOWN
  | OUT_OF_SERVICE
  | UNKNOWN
  deriving DecidableEq, Repr

def STATUS_STARTING : StatusType := .STARTING

def STATUS_UP : StatusType := .UP

/-- Go `positiveInt` value used for the `Port` field:
`positiveInt{Value: port, Enabled: "true"}`. -/
structure PositiveInt where
  Value : Int
  Enabled : String
  deriving DecidableEq, Repr

/-- The instance descriptor `InstanceVo`.  Its defining file is outside
`src/`; fields are the ones the spec names for the InstanceDescriptor
(application id, assigned instance id, status, port, vip addresses) —
exactly the fields `client.go` reads and writes. -/
structure InstanceVo where
  App : String
  InstanceId : String
  Status : StatusType
  Port : PositiveInt
  VipAddress : String
  SecureVipAddress : String
  deriving DecidableEq, Repr

/-- Modelled from the spec: `DefaultInstanceVo()` (defined outside `src/`)
produces a fresh descriptor with zero-valued / default fields; the claims
only depend on the fields `Register` overwrites afterwards. -/
def DefaultInstanceVo : InstanceVo :=
  { App := "", InstanceId := "", Status := .UNKNOWN
    Port := { Value := 0, Enabled := "false" }
    VipAddress := "", SecureVipAddress := "" }

/-- An application record of the registry.  The spec treats
ApplicationDescriptor as opaque apart from its `Name` key
(`client.go` only reads `app.Name`); `Rest` stands for the opaque payload. -/
structure ApplicationVo where
  Name : String
  Rest : String
  deriving DecidableEq, Repr

/-- The configuration fields `client.go` reads.  The config file is outside
`src/`; `AvailabilityZones` is modelled from the spec as the ordered zone
priority list that `config.GetAvailabilityZones(config.Region)` yields. -/
structure EurekaClientConfig where
  RegisterWithEureka : Bool
  FetchRegistry : Bool
  UseDnsForFetchingServiceUrls : Bool
  AutoUpdateDnsServiceUrls : Bool
  AutoUpdateDnsServiceUrlsIntervals : Nat
  HeartbeatIntervals : Nat
  RegistryFetchIntervalSeconds : Nat
  Region : String
  AvailabilityZones : List String
  deriving DecidableEq, Repr

/-- The registry cache `map[string]ApplicationVo`, embedded as a lookup
function (Go map semantics: later inserts overwrite earlier ones). -/
def RegistryMap : Type := String → Option ApplicationVo

/-- Go map insertion `m[k] = v`. -/
def mapInsert (m : RegistryMap) (k : String) (v : ApplicationVo) : RegistryMap :=
  fun n => if n = k then some v else m n

/-- The `Client` struct of `client.go`.  The Go field `instance` is a Lean
keyword, hence `instanceVo`.  `pickServerUrlIdx` holds the `atomic.Int32`
value (kept in `int32` range by construction, initial value 0). -/
structure Client where
  config : EurekaClientConfig
  instanceVo : Option InstanceVo
  serviceUrls : List String
  registryApps : RegistryMap
  pickServerUrlIdx : Int

/-- `Client.Register(appId, port)`: builds the descriptor from the defaults,
overwriting application id, status, port and the two vip addresses
(`strings.ToLower(appId)`), stores it in the client and returns the client. -/
def Client.Register (t : Client) (appId : String) (port : Int) : Client :=
  let vo : InstanceVo :=
    { DefaultInstanceVo with
      App := appId
      Status := STATUS_STARTING
      Port := { Value := port, Enabled := "true" }
      VipAddress := appId.toLower
      SecureVipAddress := appId.toLower }
  { t with instanceVo := some vo }

/-- The zone loop of `Client.getServiceUrlsWithZones` (client.go:138-159).
`resolve` is the `EndpointUtils.GetDiscoveryServiceUrls(config, zone)`
collaborator.  Arguments: remaining zones, current pool (`t.serviceUrls`),
the `err` variable's current value.  A zone error logs and continues; a
zone success (`err == nil`) overwrites the pool with that zone's list and
breaks.  The final `err` value is returned. -/
def getServiceUrlsWithZonesLoop (resolve : String → Except String (List String)) :
    List String → List String → Option String → List String × Option String
  | [], pool, err => (pool, err)
  | z :: rest, pool, _ =>
    match resolve z with
    | .error e => getServiceUrlsWithZonesLoop resolve rest pool (some e)
    | .ok urls => (urls, none)

/-- `Client.getServiceUrlsWithZones` (client.go:138-159): runs the zone loop
over the configured availability zones and stores the resulting pool. -/
def Client.getServiceUrlsWithZones (t : Client)
    (resolve : String → Except String (List String)) : Client × Option String :=
  let r := getServiceUrlsWithZonesLoop resolve t.config.AvailabilityZones t.serviceUrls none
  ({ t with serviceUrls := r.1 }, r.2)

/-- `Client.currentServerUrl` (client.go:182-194): `("", false)` when the
pool is empty, otherwise `t.serviceUrls[int(pickServerUrlIdx.Load()) % len]`. -/
def Client.currentServerUrl (t : Client) : GoResult String :=
  let serverLength := t.serviceUrls.length
  if serverLength ≤ 0 then
    .notOk
  else
    goIndex t.serviceUrls (goMod t.pickServerUrlIdx (serverLength : Int))

/-- `Client.pickServiceUrl` (client.go:162-179): if the pool is empty, one
synchronous `getServiceUrlsWithZones` attempt (early `("", false)` return on
its error); then, if the pool is still empty, `("", false)`; otherwise
`shiftIdx := int(pickServerUrlIdx.Inc())` and index `shiftIdx % len`.
Returns the Go result together with the updated client state. -/
def Client.pickServiceUrl (t : Client)
    (resolve : String → Except String (List String)) : GoResult String × Client :=
  let r :=
    if t.serviceUrls.length = 0 then t.getServiceUrlsWithZones resolve
    else (t, none)
  if r.2.isSome then
    (.notOk, r.1)
  else if r.1.serviceUrls.length = 0 then
    (.notOk, r.1)
  else
    let t2 := { r.1 with pickServerUrlIdx := inc32 r.1.pickServerUrlIdx }
    (goIndex t2.serviceUrls (goMod t2.pickServerUrlIdx (t2.serviceUrls.length : Int)), t2)

/-! ### Arithmetic facts about the 32-bit cursor -/

theorem wrap32_wrap32_add (x y : Int) : wrap32 (wrap32 x + y) = wrap32 (x + y) := by
  unfold wrap32
  omega

theorem wrap32_eq_of_lt (k : Nat) (h : k < 2 ^ 31) : wrap32 (k : Int) = (k : Int) := by
  unfold wrap32
  omega

theorem inc32_wrap32 (x : Int) : inc32 (wrap32 x) = wrap32 (x + 1) := by
  unfold inc32
  exact wrap32_wrap32_add x 1

theorem iterate_inc32_wrap32 (n : Nat) : ∀ x : Int, inc32^[n] (wrap32 x) = wrap32 (x + n) := by
  induction n with
  | zero => intro x; simp
  | succ n ih =>
    intro x
    rw [Function.iterate_succ_apply, inc32_wrap32, ih (x + 1)]
    congr 1
    push_cast
    ring

/-- The cursor starts at 0 (Go zero value); after `k` increments its stored
`int32` value is `wrap32 k`. -/
theorem iterate_inc32_zero (k : Nat) : inc32^[k] 0 = wrap32 (k : Int) := by
  have h0 : wrap32 0 = 0 := by unfold wrap32; omega
  calc inc32^[k] 0 = inc32^[k] (wrap32 0) := by rw [h0]
    _ = wrap32 (0 + (k : Int)) := iterate_inc32_wrap32 k 0
    _ = wrap32 (k : Int) := by rw [Int.zero_add]

theorem goMod_ofNat (k n : Nat) : goMod (k : Int) (n : Int) = ((k % n : Nat) : Int) := by
  unfold goMod
  rw [if_pos (Int.ofNat_nonneg k)]
  exact (Int.ofNat_emod k n).symm

theorem goIndex_ofNat {α : Type} (xs : List α) (m : Nat) (h : m < xs.length) :
    goIndex xs (m : Int) = .ok (xs.get ⟨m, h⟩) := by
  unfold goIndex
  rw [dif_pos ⟨Int.ofNat_nonneg m, by exact_mod_cast h⟩]
  congr 1

/-! ### Concrete fixtures used by counterexamples and witnesses -/

def cfg0 : EurekaClientConfig :=
  { RegisterWithEureka := true, FetchRegistry := true
    UseDnsForFetchingServiceUrls := false, AutoUpdateDnsServiceUrls := false
    AutoUpdateDnsServiceUrlsIntervals := 10, HeartbeatIntervals := 30
    RegistryFetchIntervalSeconds := 15, Region := "region-cn-hd-1"
    AvailabilityZones := ["zone-cn-hz-1"] }

def emptyRegistry : RegistryMap := fun _ => none

/-- A client whose cursor has just wrapped: the stored `int32` value after
`2 ^ 31` increments from the initial 0. -/
def client3 : Client :=
  { config := cfg0, instanceVo := none
    serviceUrls := ["http://a/eureka", "http://b/eureka", "http://c/eureka"]
    registryApps := emptyRegistry, pickServerUrlIdx := -(2 ^ 31) }

/-- A client in the steady state: three endpoints, cursor at 4. -/
def client4 : Client :=
  { config := cfg0, instanceVo := none
    serviceUrls := ["http://a/eureka", "http://b/eureka", "http://c/eureka"]
    registryApps := emptyRegistry, pickServerUrlIdx := 4 }

/-! ### C1: endpoint selection -/

/-- C1 counterexample: the claim fails for long rotation sequences.  After
exactly `2 ^ 31` cursor increments from the initial 0 the `atomic.Int32`
cursor holds `-2 ^ 31`; Go's `%` keeps the dividend's sign, so
`currentServerUrl` computes index `-2147483648 % 3 = -2` on a 3-endpoint
pool and indexes out of range (a runtime panic), instead of returning
`pool[cursor mod 3]`. -/
theorem currentServerUrl_wrap_out_of_range :
    inc32^[2 ^ 31] 0 = -(2 ^ 31) ∧ Client.currentServerUrl client3 = .outOfRange := by
  constructor
  · rw [iterate_inc32_zero]
    decide
  · decide

/-- C1 (amended): for every non-empty pool, as long as the number of cursor
increments performed since start stays below `2 ^ 31` (so the signed 32-bit
cursor has not wrapped negative), `currentServerUrl` returns
`pool[cursor mod N]` and `pickServiceUrl` increments the cursor and returns
`pool[(cursor + 1) mod N]`; both computed indices are in range (the `.ok`
result of total `List.get`), and no out-of-range access happens. -/
theorem selection_in_range_before_wrap (t : Client) (k : Nat)
    (hc : t.pickServerUrlIdx = wrap32 (k : Int))
    (hne : t.serviceUrls.length ≠ 0) (hk : k + 1 < 2 ^ 31) :
    t.currentServerUrl =
      .ok (t.serviceUrls.get ⟨k % t.serviceUrls.length, Nat.mod_lt k (Nat.pos_of_ne_zero hne)⟩) ∧
    ∀ resolve,
      (t.pickServiceUrl resolve).1 =
        .ok (t.serviceUrls.get
          ⟨(k + 1) % t.serviceUrls.length, Nat.mod_lt (k + 1) (Nat.pos_of_ne_zero hne)⟩) ∧
      (t.pickServiceUrl resolve).2 = { t with pickServerUrlIdx := wrap32 ((k : Int) + 1) } := by
  have hklt : k < 2 ^ 31 := by omega
  have hcur : t.pickServerUrlIdx = (k : Int) := by rw [hc, wrap32_eq_of_lt k hklt]
  constructor
  · unfold Client.currentServerUrl
    rw [if_neg (by omega : ¬ t.serviceUrls.length ≤ 0), hcur, goMod_ofNat]
    exact goIndex_ofNat t.serviceUrls (k % t.serviceUrls.length)
      (Nat.mod_lt k (Nat.pos_of_ne_zero hne))
  · intro resolve
    have hinc : inc32 t.pickServerUrlIdx = ((k + 1 : Nat) : Int) := by
      rw [hc, inc32_wrap32, show (k : Int) + 1 = ((k + 1 : Nat) : Int) by push_cast; ring,
        wrap32_eq_of_lt (k + 1) hk]
    unfold Client.pickServiceUrl
    rw [if_neg hne]
    simp only [Option.isSome_none, Bool.false_eq_true, if_false, if_neg hne, hinc]
    rw [goMod_ofNat]
    refine ⟨goIndex_ofNat t.serviceUrls ((k + 1) % t.serviceUrls.length)
      (Nat.mod_lt (k + 1) (Nat.pos_of_ne_zero hne)), ?_⟩
    rw [show ((k : Int) + 1) = ((k + 1 : Nat) : Int) by push_cast; ring,
      wrap32_eq_of_lt (k + 1) hk]

/-- Witness for the amended C1 theorem at a concrete client: pool of three
endpoints, cursor 4, selection yields `pool[4 mod 3]`. -/
theorem selection_in_range_before_wrap_witness :
    Client.currentServerUrl client4 = .ok "http://b/eureka" :=
  ((selection_in_range_before_wrap client4 4 (by decide) (by decide) (by decide)).1).trans
    (by decide)

/-! ### C3 / C9: the registration retry loop `registerWithEureka` -/

/-- Outcome of one iteration of the `registerWithEureka` retry loop, as seen
through its three external calls (client.go:234-253): handle acquisition
(`t.Api()`), `RegisterInstanceWithVo` (on success yields the instance id the
server assigned), and `UpdateInstanceStatus(..., STATUS_UP)`. -/
inductive RegAttempt where
  | apiFail
  | registerFail
  | statusFail (instanceId : String)
  | success (instanceId : String)
  deriving DecidableEq, Repr

def RegAttempt.isSuccess : RegAttempt → Bool
  | .success _ => true
  | _ => false

/-- How a run of `registerWithEureka` ended (or where it stands after the
supplied outcomes are exhausted).  `sleeps` counts the executed
`time.Sleep(time.Second * DEFAULT_SLEEP_INTERVALS)` calls, one per failed
iteration. -/
inductive RegResult where
  | notEnabled
  | nilInstanceError
  | registeredUp (vo : InstanceVo) (sleeps : Nat)
  | stillRetrying (vo : InstanceVo) (sleeps : Nat)
  deriving DecidableEq, Repr

/-- The `for` loop of `registerWithEureka` (client.go:228-258), driven by the
list of external-call outcomes.  `apiFail` and `registerFail` sleep and
retry; `statusFail id` writes the freshly returned id into the descriptor
(line 246 runs before the status update), then sleeps and retries;
`success id` writes the id and breaks out of the loop.  An exhausted outcome
list leaves the loop still running (`stillRetrying`). -/
def registerLoop (vo : InstanceVo) (sleeps : Nat) : List RegAttempt → RegResult
  | [] => .stillRetrying vo sleeps
  | a :: rest =>
    match a with
    | .apiFail => registerLoop vo (sleeps + 1) rest
    | .registerFail => registerLoop vo (sleeps + 1) rest
    | .statusFail id => registerLoop { vo with InstanceId := id } (sleeps + 1) rest
    | .success id => .registeredUp { vo with InstanceId := id } sleeps

/-- `Client.registerWithEureka` (client.go:222-259): returns immediately when
self-registration is disabled; fails fatally (log + return, before any
external call and without sleeping) when the instance descriptor is nil —
that check heads every loop iteration in the source, and since nothing can
make the descriptor nil once set, checking it on entry is equivalent;
otherwise runs the retry loop. -/
def registerWithEureka (cfg : EurekaClientConfig) (vo : Option InstanceVo)
    (outcomes : List RegAttempt) : RegResult :=
  if !cfg.RegisterWithEureka then
    .notEnabled
  else
    match vo with
    | none => .nilInstanceError
    | some v => registerLoop v 0 outcomes

theorem registerLoop_registeredUp (outcomes : List RegAttempt) :
    ∀ (v : InstanceVo) (s : Nat) (w : InstanceVo) (s2 : Nat),
      registerLoop v s outcomes = .registeredUp w s2 →
      ∃ pre id post, outcomes = pre ++ RegAttempt.success id :: post ∧
        (∀ a ∈ pre, a.isSuccess = false) ∧
        w = { v with InstanceId := id } ∧ s2 = s + pre.length := by
  induction outcomes with
  | nil => intro v s w s2 h; exact absurd h (by simp [registerLoop])
  | cons a rest ih =>
    intro v s w s2 h
    cases a with
    | apiFail =>
      obtain ⟨pre, id, post, h1, h2, h3, h4⟩ := ih v (s + 1) w s2 h
      exact ⟨.apiFail :: pre, id, post, by simp [h1], by
        intro x hx
        rcases List.mem_cons.1 hx with hx | hx
        · subst hx; rfl
        · exact h2 x hx, h3, by simp [h4]; omega⟩
    | registerFail =>
      obtain ⟨pre, id, post, h1, h2, h3, h4⟩ := ih v (s + 1) w s2 h
      exact ⟨.registerFail :: pre, id, post, by simp [h1], by
        intro x hx
        rcases List.mem_cons.1 hx with hx | hx
        · subst hx; rfl
        · exact h2 x hx, h3, by simp [h4]; omega⟩
    | statusFail id0 =>
      obtain ⟨pre, id, post, h1, h2, h3, h4⟩ := ih { v with InstanceId := id0 } (s + 1) w s2 h
      refine ⟨.statusFail id0 :: pre, id, post, by simp [h1], by
        intro x hx
        rcases List.mem_cons.1 hx with hx | hx
        · subst hx; rfl
        · exact h2 x hx, ?_, by simp [h4]; omega⟩
      simpa using h3
    | success id0 =>
      simp only [registerLoop] at h
      refine ⟨[], id0, rest, by simp, by simp, ?_, ?_⟩
      · exact (RegResult.registeredUp.inj h).1.symm
      · have := (RegResult.registeredUp.inj h).2
        simp [← this]

theorem registerLoop_noSuccess (outcomes : List RegAttempt) :
    ∀ (v : InstanceVo) (s : Nat), (∀ a ∈ outcomes, a.isSuccess = false) →
      ∃ w, registerLoop v s outcomes = .stillRetrying w (s + outcomes.length) := by
  induction outcomes with
  | nil => intro v s _; exact ⟨v, by simp [registerLoop]⟩
  | cons a rest ih =>
    intro v s hall
    cases a with
    | apiFail =>
      obtain ⟨w, hw⟩ := ih v (s + 1) (fun x hx => hall x (List.mem_cons_of_mem _ hx))
      exact ⟨w, by simp only [registerLoop, hw]; congr 1; simp; omega⟩
    | registerFail =>
      obtain ⟨w, hw⟩ := ih v (s + 1) (fun x hx => hall x (List.mem_cons_of_mem _ hx))
      exact ⟨w, by simp only [registerLoop, hw]; congr 1; simp; omega⟩
    | statusFail id0 =>
      obtain ⟨w, hw⟩ := ih { v with InstanceId := id0 } (s + 1)
        (fun x hx => hall x (List.mem_cons_of_mem _ hx))
      exact ⟨w, by simp only [registerLoop, hw]; congr 1; simp; omega⟩
    | success id0 =>
      exact absurd (hall (.success id0) (List.mem_cons_self _ _)) (by simp [RegAttempt.isSuccess])

/-- C3: with self-registration enabled and a descriptor present, the retry
loop of `registerWithEureka` (i) reaches the registered-and-UP exit only via
an iteration whose register call and subsequent UP status update both
succeeded — every earlier iteration was a failure, each costing exactly one
fixed-interval sleep — and the descriptor then carries exactly the instance
id returned by that last successful register call; and (ii) on a run of
failures of any length it is still retrying, having slept once per failed
iteration: there is no attempt cap. -/
theorem registerWithEureka_retries_until_up (cfg : EurekaClientConfig) (v : InstanceVo)
    (outcomes : List RegAttempt) (hcfg : cfg.RegisterWithEureka = true) :
    (∀ w s, registerWithEureka cfg (some v) outcomes = .registeredUp w s →
      ∃ pre id post, outcomes = pre ++ RegAttempt.success id :: post ∧
        (∀ a ∈ pre, a.isSuccess = false) ∧
        w = { v with InstanceId := id } ∧ s = pre.length) ∧
    ((∀ a ∈ outcomes, a.isSuccess = false) →
      ∃ w, registerWithEureka cfg (some v) outcomes = .stillRetrying w outcomes.length) := by
  constructor
  · intro w s h
    rw [registerWithEureka, hcfg] at h
    simp only [Bool.not_true, Bool.false_eq_true, if_false] at h
    obtain ⟨pre, id, post, h1, h2, h3, h4⟩ := registerLoop_registeredUp outcomes v 0 w s h
    exact ⟨pre, id, post, h1, h2, h3, by omega⟩
  · intro hall
    obtain ⟨w, hw⟩ := registerLoop_noSuccess outcomes v 0 hall
    refine ⟨w, ?_⟩
    rw [registerWithEureka, hcfg]
    simpa using hw

/-- Witness for C3 at a concrete run: two failed iterations (handle
acquisition failure, then register failure), loop still retrying with two
sleeps taken. -/
theorem registerWithEureka_retries_until_up_witness :
    ∃ w, registerWithEureka cfg0 (some DefaultInstanceVo)
      [RegAttempt.apiFail, RegAttempt.registerFail] = .stillRetrying w 2 :=
  (registerWithEureka_retries_until_up cfg0 DefaultInstanceVo
    [RegAttempt.apiFail, RegAttempt.registerFail] rfl).2 (by decide)

/-- C9: with self-registration enabled but no instance descriptor set,
`registerWithEureka` hits the nil check at the head of the loop body and
returns at once — whatever outcomes the external calls would have produced,
none of them is consumed (no register or status-update call is made) and no
sleep or retry happens; the run ends in the logged fatal
`nilInstanceError`. -/
theorem registerWithEureka_nil_instance_fatal (cfg : EurekaClientConfig)
    (outcomes : List RegAttempt) (hcfg : cfg.RegisterWithEureka = true) :
    registerWithEureka cfg none outcomes = .nilInstanceError := by
  rw [registerWithEureka, hcfg]
  rfl

/-- Witness for C9: concrete config, a nonempty outcome list that would have
allowed a successful registration is never consumed. -/
theorem registerWithEureka_nil_instance_fatal_witness :
    registerWithEureka cfg0 none [RegAttempt.success "id-1"] = .nilInstanceError :=
  registerWithEureka_nil_instance_fatal cfg0 [RegAttempt.success "id-1"] rfl

/-! ### C2: the heartbeat loop -/

/-- The loop-local state of `Client.heartbeat` (client.go:262-292):
`latestPickIdx` is the loop variable initialised to 0, `pickServerUrlIdx`
the shared atomic cursor. -/
structure HbState where
  latestPickIdx : Int
  pickServerUrlIdx : Int
  deriving DecidableEq, Repr

/-- Outcome of one heartbeat tick's external calls: whether `t.Api()`
yielded a handle and whether `SendHeartbeat` succeeded. -/
structure HbTickInput where
  apiOk : Bool
  heartbeatOk : Bool
  deriving DecidableEq, Repr

/-- Observable events of one heartbeat tick: the re-registration call and
the heartbeat send, each tagged with the cursor value it acted on (the api
handle for the send is picked at tick start, so the send targets the
endpoint selected by the tick-start cursor). -/
inductive HbEvent where
  | reRegister (cursor : Int)
  | sendHeartbeat (cursor : Int) (ok : Bool)
  deriving DecidableEq, Repr

/-- One iteration of the heartbeat `for`/`select` loop (client.go:266-291):
on handle-acquisition failure, sleep and continue (no events, no state
change).  Otherwise, if the cursor moved since `latestPickIdx` last
recorded it, call `registerWithEureka` and re-record the cursor; then send
the heartbeat, and on send failure advance the cursor by one and sleep.
`registerWithEureka`'s own handle acquisition leaves the cursor untouched
whenever the pool is non-empty, which holds on any tick whose own `t.Api()`
call succeeded — so within a tick the re-registration does not move the
cursor. -/
def heartbeatTick (st : HbState) (inp : HbTickInput) : HbState × List HbEvent :=
  if !inp.apiOk then
    (st, [])
  else
    let r :=
      if st.latestPickIdx ≠ st.pickServerUrlIdx then
        ({ st with latestPickIdx := st.pickServerUrlIdx },
          [HbEvent.reRegister st.pickServerUrlIdx])
      else (st, ([] : List HbEvent))
    if inp.heartbeatOk then
      (r.1, r.2 ++ [HbEvent.sendHeartbeat r.1.pickServerUrlIdx true])
    else
      ({ r.1 with pickServerUrlIdx := inc32 r.1.pickServerUrlIdx },
        r.2 ++ [HbEvent.sendHeartbeat r.1.pickServerUrlIdx false])

theorem heartbeatTick_noApi (st : HbState) (inp : HbTickInput) (h : inp.apiOk = false) :
    heartbeatTick st inp = (st, []) := by
  simp [heartbeatTick, h]

theorem heartbeatTick_sync (st : HbState) (inp : HbTickInput) (h1 : inp.apiOk = true)
    (h2 : st.latestPickIdx = st.pickServerUrlIdx) :
    heartbeatTick st inp =
      (if inp.heartbeatOk then st
        else { st with pickServerUrlIdx := inc32 st.pickServerUrlIdx },
      [HbEvent.sendHeartbeat st.pickServerUrlIdx inp.heartbeatOk]) := by
  cases h3 : inp.heartbeatOk <;> simp [heartbeatTick, h1, h2, h3]

theorem heartbeatTick_moved (st : HbState) (inp : HbTickInput) (h1 : inp.apiOk = true)
    (h2 : st.latestPickIdx ≠ st.pickServerUrlIdx) :
    heartbeatTick st inp =
      (if inp.heartbeatOk then { st with latestPickIdx := st.pickServerUrlIdx }
        else { latestPickIdx := st.pickServerUrlIdx
               pickServerUrlIdx := inc32 st.pickServerUrlIdx },
      [HbEvent.reRegister st.pickServerUrlIdx,
        HbEvent.sendHeartbeat st.pickServerUrlIdx inp.heartbeatOk]) := by
  cases h3 : inp.heartbeatOk <;> simp [heartbeatTick, h1, h2, h3]

/-- C2: on every heartbeat tick (so in particular on every tick of every
run of the loop): (i) a failed heartbeat send advances the cursor by
exactly one; (ii) whenever the tick observes a cursor different from the
last recorded `latestPickIdx`, it re-registers first — the tick's event
list starts with the re-registration, followed only by the heartbeat send —
and re-records the cursor; (iii) every heartbeat send of the tick targets
the tick-start cursor, and if that cursor differed from the recorded one
the send is preceded by a re-registration against that same cursor: a
heartbeat is never sent to a rotated-to endpoint without a preceding
re-registration in the loop. -/
theorem heartbeat_reregisters_after_rotation (st : HbState) (inp : HbTickInput) :
    (inp.apiOk = true → inp.heartbeatOk = false →
      (heartbeatTick st inp).1.pickServerUrlIdx = inc32 st.pickServerUrlIdx) ∧
    (inp.apiOk = true → st.latestPickIdx ≠ st.pickServerUrlIdx →
      (heartbeatTick st inp).2 = [HbEvent.reRegister st.pickServerUrlIdx,
        HbEvent.sendHeartbeat st.pickServerUrlIdx inp.heartbeatOk] ∧
      (heartbeatTick st inp).1.latestPickIdx = st.pickServerUrlIdx) ∧
    (∀ c ok, HbEvent.sendHeartbeat c ok ∈ (heartbeatTick st inp).2 →
      c = st.pickServerUrlIdx ∧
      (st.latestPickIdx ≠ st.pickServerUrlIdx →
        (heartbeatTick st inp).2 = [HbEvent.reRegister c,
          HbEvent.sendHeartbeat c ok])) := by
  by_cases hapi : inp.apiOk = true
  · by_cases hmoved : st.latestPickIdx = st.pickServerUrlIdx
    · rw [heartbeatTick_sync st inp hapi hmoved]
      refine ⟨?_, ?_, ?_⟩
      · intro _ hfail
        rw [hfail]
        simp
      · intro _ hne; exact absurd hmoved hne
      · intro c ok hmem
        simp only [List.mem_singleton] at hmem
        cases hmem
        exact ⟨rfl, fun hne => absurd hmoved hne⟩
    · rw [heartbeatTick_moved st inp hapi hmoved]
      refine ⟨?_, ?_, ?_⟩
      · intro _ hfail
        rw [hfail]
        simp
      · intro _ _
        exact ⟨rfl, by cases inp.heartbeatOk <;> simp⟩
      · intro c ok hmem
        simp only [List.mem_cons, List.mem_singleton] at hmem
        rcases hmem with hmem | hmem | hmem
        · cases hmem
        · cases hmem
          exact ⟨rfl, fun _ => rfl⟩
        · cases hmem
  · have hf : inp.apiOk = false := by
      cases h : inp.apiOk
      · rfl
      · exact absurd h hapi
    rw [heartbeatTick_noApi st inp hf]
    refine ⟨?_, ?_, ?_⟩
    · intro h _; exact absurd h hapi
    · intro h _; exact absurd h hapi
    · intro c ok hmem
      simp at hmem

/-- Witness for C2 at a concrete tick: recorded cursor 0, actual cursor 5
(a rotation happened earlier), handle ok, heartbeat send fails: the tick
re-registers at cursor 5 first, sends the heartbeat at cursor 5, and the
failed send advances the cursor to 6. -/
theorem heartbeat_reregisters_after_rotation_witness :
    (heartbeatTick ⟨0, 5⟩ ⟨true, false⟩).1.pickServerUrlIdx = 6 ∧
    (heartbeatTick ⟨0, 5⟩ ⟨true, false⟩).2 =
      [HbEvent.reRegister 5, HbEvent.sendHeartbeat 5 false] := by
  have h := heartbeat_reregisters_after_rotation ⟨0, 5⟩ ⟨true, false⟩
  exact ⟨(h.1 rfl rfl).trans (by decide), (h.2.1 rfl (by decide)).1⟩

/-! ### C4: the background service-URL refresh goroutine -/

/-- The guard at the top of the goroutine started by
`Client.refreshServiceUrls` (client.go:123):
`if !t.config.UseDnsForFetchingServiceUrls && t.config.AutoUpdateDnsServiceUrls { return }`.
When it evaluates to true the goroutine returns before entering the loop. -/
def refreshGoroutineReturnsEarly (cfg : EurekaClientConfig) : Bool :=
  !cfg.UseDnsForFetchingServiceUrls && cfg.AutoUpdateDnsServiceUrls

/-- Whether the background `getServiceUrlsWithZones` refresh loop
(client.go:127-132) runs: exactly when the guard does not return early. -/
def refreshLoopRuns (cfg : EurekaClientConfig) : Bool :=
  !(refreshGoroutineReturnsEarly cfg)

/-- Modelled from the spec: the documented activation condition of the
refresh loop — the source comment (client.go:120-121) and the spec both say
the loop is active "(only) while UseDnsForFetchingServiceUrls=true and
AutoUpdateDnsServiceUrls=true". -/
def refreshLoopRunsSpec (cfg : EurekaClientConfig) : Bool :=
  cfg.UseDnsForFetchingServiceUrls && cfg.AutoUpdateDnsServiceUrls

/-- C4 is a code bug: with `UseDnsForFetchingServiceUrls = false` and
`AutoUpdateDnsServiceUrls = false` (the configuration of both example
programs in the repository, which use static URL lists), the code's guard
`!UseDnsForFetchingServiceUrls && AutoUpdateDnsServiceUrls` is false, so the
goroutine falls through into the endless refresh loop and keeps re-invoking
zone resolution — while the claim, the spec and the code's own comment say
the loop must run only when both flags are true.  `cfg0` is that
configuration. -/
theorem refresh_loop_guard_is_inverted :
    refreshLoopRuns cfg0 = true ∧ refreshLoopRunsSpec cfg0 = false ∧
    cfg0.UseDnsForFetchingServiceUrls = false ∧ cfg0.AutoUpdateDnsServiceUrls = false := by
  refine ⟨rfl, rfl, rfl, rfl⟩

/-! ### C5: zone resolution priority -/

/-- Resolver exhibiting the gap in C5: zone "z1" resolves successfully to an
empty URL list, zone "z2" to a non-empty one. -/
def emptyFirstResolve : String → Except String (List String) := fun z =>
  if z = "z1" then .ok [] else .ok ["http://b/eureka"]

/-- A client configured with zones ["z1", "z2"] and an existing pool. -/
def clientZones : Client :=
  { config := { cfg0 with AvailabilityZones := ["z1", "z2"] }
    instanceVo := none, serviceUrls := ["http://old/eureka"]
    registryApps := emptyRegistry, pickServerUrlIdx := 0 }

/-- C5 counterexample: the loop in `getServiceUrlsWithZones` breaks on the
first zone whose resolution returns without error, with no check that the
returned URL list is non-empty.  Here zone "z1" succeeds with an empty
list: the loop stops there and installs the empty pool, even though zone
"z2" — the first zone succeeding with a NON-empty list, which the claim
says wins — was never tried; no error is returned. -/
theorem zones_empty_success_stops_loop :
    (clientZones.getServiceUrlsWithZones emptyFirstResolve).1.serviceUrls = [] ∧
    (clientZones.getServiceUrlsWithZones emptyFirstResolve).2 = none ∧
    emptyFirstResolve "z2" = .ok ["http://b/eureka"] ∧
    ([] : List String) ≠ ["http://b/eureka"] := by
  refine ⟨rfl, rfl, rfl, by simp⟩

theorem zonesLoop_first_ok (resolve : String → Except String (List String))
    (pre : List String) :
    ∀ (z : String) (post pool urls : List String) (acc : Option String),
      (∀ y ∈ pre, ∃ e, resolve y = .error e) → resolve z = .ok urls →
      getServiceUrlsWithZonesLoop resolve (pre ++ z :: post) pool acc = (urls, none) := by
  induction pre with
  | nil =>
    intro z post pool urls acc _ hz
    simp only [List.nil_append, getServiceUrlsWithZonesLoop, hz]
  | cons y pre ih =>
    intro z post pool urls acc hpre hz
    obtain ⟨e, he⟩ := hpre y (List.mem_cons_self _ _)
    simp only [List.cons_append, getServiceUrlsWithZonesLoop, he]
    exact ih z post pool urls (some e) (fun x hx => hpre x (List.mem_cons_of_mem _ hx)) hz

theorem zonesLoop_err (resolve : String → Except String (List String))
    (zones : List String) :
    ∀ (pool p : List String) (acc : Option String) (e : String),
      getServiceUrlsWithZonesLoop resolve zones pool acc = (p, some e) →
      p = pool ∧ ∀ z ∈ zones, ∃ e2, resolve z = .error e2 := by
  induction zones with
  | nil =>
    intro pool p acc e h
    simp only [getServiceUrlsWithZonesLoop, Prod.mk.injEq] at h
    exact ⟨h.1.symm, by simp⟩
  | cons z rest ih =>
    intro pool p acc e h
    cases hz : resolve z with
    | ok urls =>
      rw [getServiceUrlsWithZonesLoop, hz] at h
      exact absurd (congrArg Prod.snd h) (by simp)
    | error e2 =>
      rw [getServiceUrlsWithZonesLoop, hz] at h
      obtain ⟨h1, h2⟩ := ih pool p (some e2) e h
      refine ⟨h1, fun x hx => ?_⟩
      rcases List.mem_cons.1 hx with hx | hx
      · exact ⟨e2, by rw [hx, hz]⟩
      · exact h2 x hx

/-- C5 (amended): `getServiceUrlsWithZones` iterates the configured zones in
priority order and stops at the first zone whose resolution returns without
error — even when that zone's URL list is empty — installing that list as
the pool and returning no error (so remaining zones are not tried); an error
is returned only when every configured zone's resolution errored, and in
that case the pool is left unchanged. -/
theorem zones_first_no_error_wins (resolve : String → Except String (List String))
    (t : Client) :
    (∀ pre z post urls, t.config.AvailabilityZones = pre ++ z :: post →
      (∀ y ∈ pre, ∃ e, resolve y = .error e) → resolve z = .ok urls →
      t.getServiceUrlsWithZones resolve = ({ t with serviceUrls := urls }, none)) ∧
    (∀ e, (t.getServiceUrlsWithZones resolve).2 = some e →
      (∀ z ∈ t.config.AvailabilityZones, ∃ e2, resolve z = .error e2) ∧
      (t.getServiceUrlsWithZones resolve).1 = t) := by
  constructor
  · intro pre z post urls hzones hpre hz
    unfold Client.getServiceUrlsWithZones
    rw [hzones, zonesLoop_first_ok resolve pre z post t.serviceUrls urls none hpre hz]
  · intro e he
    unfold Client.getServiceUrlsWithZones at he ⊢
    simp only at he ⊢
    rcases hl : getServiceUrlsWithZonesLoop resolve t.config.AvailabilityZones
        t.serviceUrls none with ⟨p, err⟩
    rw [hl] at he
    simp only at he
    subst he
    obtain ⟨h1, h2⟩ := zonesLoop_err resolve t.config.AvailabilityZones t.serviceUrls p none e hl
    refine ⟨h2, ?_⟩
    subst h1
    rfl

/-- Witness for the amended C5: zone "z1" errors, zone "z2" resolves, the
pool becomes z2's list with no error returned. -/
theorem zones_first_no_error_wins_witness :
    clientZones.getServiceUrlsWithZones
        (fun z => if z = "z1" then .error "dns down" else .ok ["http://b/eureka"]) =
      ({ clientZones with serviceUrls := ["http://b/eureka"] }, none) :=
  (zones_first_no_error_wins _ clientZones).1 ["z1"] "z2" [] ["http://b/eureka"] rfl
    (by
      intro y hy
      simp only [List.mem_singleton] at hy
      subst hy
      exact ⟨"dns down", rfl⟩)
    rfl

/-! ### C6: registry refresh atomicity -/

/-- The fresh-map construction of `fetchRegistry` (client.go:323-326):
`t.registryApps = make(map[string]ApplicationVo)` followed by one insert
per queried application, keyed by `app.Name`. -/
def makeRegistry (apps : List ApplicationVo) : RegistryMap :=
  apps.foldl (fun m app => mapInsert m app.Name app) (fun _ => none)

/-- `Client.fetchRegistry` (client.go:305-329): on handle-acquisition or
query failure, log and return the error with the client untouched; on
success, replace the registry cache wholesale with the freshly built map. -/
def Client.fetchRegistry (t : Client) (apiRes : Except String Unit)
    (queryRes : Except String (List ApplicationVo)) :
    Client × Except String RegistryMap :=
  match apiRes with
  | .error e => (t, .error e)
  | .ok _ =>
    match queryRes with
    | .error e => (t, .error e)
    | .ok apps =>
      let m := makeRegistry apps
      ({ t with registryApps := m }, .ok m)

theorem foldl_mapInsert_lookup (apps : List ApplicationVo) :
    ∀ (m : RegistryMap) (n : String) (v : ApplicationVo),
      (apps.foldl (fun m app => mapInsert m app.Name app) m) n = some v →
      m n = some v ∨ (v ∈ apps ∧ v.Name = n) := by
  induction apps with
  | nil => intro m n v h; exact .inl h
  | cons a rest ih =>
    intro m n v h
    rcases ih (mapInsert m a.Name a) n v h with h1 | h1
    · unfold mapInsert at h1
      by_cases hn : n = a.Name
      · rw [if_pos hn] at h1
        refine .inr ⟨?_, ?_⟩
        · rw [← Option.some_inj.1 h1]; exact List.mem_cons_self _ _
        · rw [← Option.some_inj.1 h1, hn]
      · rw [if_neg hn] at h1
        exact .inl h1
    · exact .inr ⟨List.mem_cons_of_mem _ h1.1, h1.2⟩

theorem foldl_mapInsert_isSome (apps : List ApplicationVo) :
    ∀ (m : RegistryMap) (n : String), (m n).isSome = true →
      ((apps.foldl (fun m app => mapInsert m app.Name app) m) n).isSome = true := by
  induction apps with
  | nil => intro m n h; exact h
  | cons a rest ih =>
    intro m n h
    refine ih (mapInsert m a.Name a) n ?_
    unfold mapInsert
    by_cases hn : n = a.Name
    · rw [if_pos hn]; rfl
    · rw [if_neg hn]; exact h

theorem foldl_mapInsert_mem (apps : List ApplicationVo) :
    ∀ (m : RegistryMap) (a : ApplicationVo), a ∈ apps →
      ((apps.foldl (fun m app => mapInsert m app.Name app) m) a.Name).isSome = true := by
  induction apps with
  | nil => intro m a ha; cases ha
  | cons b rest ih =>
    intro m a ha
    rcases List.mem_cons.1 ha with ha | ha
    · subst ha
      rw [List.foldl_cons]
      refine foldl_mapInsert_isSome rest _ a.Name ?_
      unfold mapInsert
      rw [if_pos rfl]
      rfl
    · rw [List.foldl_cons]
      exact ih (mapInsert m b.Name b) a ha

theorem makeRegistry_mem (apps : List ApplicationVo) :
    ∀ a ∈ apps, (makeRegistry apps a.Name).isSome = true :=
  fun a ha => foldl_mapInsert_mem apps _ a ha

/-- C6: `fetchRegistry` is atomic on error and a wholesale replacement on
success: if handle acquisition or the registry query fails, the client —
in particular its registry cache — is returned exactly as it was; on
success the cache is the freshly built map whose entries are exactly the
queried applications keyed by their name (every entry comes from the
queried list with its own name as key, every queried application is
present under its name), with nothing carried over from the previous
cache. -/
theorem fetchRegistry_atomic (t : Client) :
    (∀ e q, t.fetchRegistry (.error e) q = (t, .error e)) ∧
    (∀ e, t.fetchRegistry (.ok ()) (.error e) = (t, .error e)) ∧
    (∀ apps,
      (t.fetchRegistry (.ok ()) (.ok apps)).1.registryApps = makeRegistry apps ∧
      (∀ n v, makeRegistry apps n = some v → v ∈ apps ∧ v.Name = n) ∧
      (∀ a ∈ apps, (makeRegistry apps a.Name).isSome = true)) := by
  refine ⟨fun e q => rfl, fun e => rfl, fun apps => ⟨rfl, ?_, makeRegistry_mem apps⟩⟩
  intro n v h
  rcases foldl_mapInsert_lookup apps _ n v h with h1 | h1
  · cases h1
  · exact h1

/-- Witness for C6 at concrete inputs: a failed handle acquisition leaves
the client untouched, and after a successful refresh the queried
application is present under its name. -/
theorem fetchRegistry_atomic_witness :
    Client.fetchRegistry client4 (.error "no url")
        (.ok [{ Name := "APP-A", Rest := "inst-1" }]) = (client4, .error "no url") ∧
    ({ Name := "APP-A", Rest := "inst-1" } : ApplicationVo) ∈
      [({ Name := "APP-A", Rest := "inst-1" } : ApplicationVo)] ∧
    ({ Name := "APP-A", Rest := "inst-1" } : ApplicationVo).Name = "APP-A" :=
  ⟨(fetchRegistry_atomic client4).1 "no url" (.ok [{ Name := "APP-A", Rest := "inst-1" }]),
    ((fetchRegistry_atomic client4).2.2 [{ Name := "APP-A", Rest := "inst-1" }]).2.1
      "APP-A" { Name := "APP-A", Rest := "inst-1" } (by decide)⟩

/-! ### C7: shutdown de-registration fan-out -/

/-- The termination branch of `Client.handleSignal` (client.go:348-351):
`for _ = range t.serviceUrls { t.DeRegisterInstance(); t.pickServerUrlIdx.Inc() }`.
Arguments: the de-registration outcome oracle (whether attempt number `i`
succeeded — `DeRegisterInstance` only logs on failure, client.go:358-375),
the attempt counter `i`, remaining iteration count, current cursor.
Records each attempt with the cursor value it ran under (its `Api()` handle
resolves the endpoint from that cursor) and its outcome; returns the final
cursor. -/
def deRegisterLoop (outcome : Nat → Bool) : Nat → Nat → Int → List (Int × Bool) × Int
  | _, 0, c => ([], c)
  | i, k + 1, c =>
    let r := deRegisterLoop outcome (i + 1) k (inc32 c)
    ((c, outcome i) :: r.1, r.2)

/-- The shutdown path of `Client.handleSignal` (client.go:334-356) on
receipt of a termination signal: run the de-registration loop over the
known pool, then `os.Exit(0)`.  Result: (attempt list, final cursor,
process exit code). -/
def Client.handleSignalTerm (t : Client) (outcome : Nat → Bool) :
    List (Int × Bool) × Int × Nat :=
  let r := deRegisterLoop outcome 0 t.serviceUrls.length t.pickServerUrlIdx
  (r.1, r.2, 0)

theorem deRegisterLoop_spec (outcome : Nat → Bool) :
    ∀ (k i : Nat) (c : Int),
      deRegisterLoop outcome i k c =
        ((List.range k).map (fun j => (inc32^[j] c, outcome (i + j))), inc32^[k] c) := by
  intro k
  induction k with
  | zero => intro i c; simp [deRegisterLoop]
  | succ k ih =>
    intro i c
    rw [deRegisterLoop, ih (i + 1) (inc32 c)]
    rw [Prod.mk.injEq]
    refine ⟨?_, (Function.iterate_succ_apply inc32 k c).symm⟩
    rw [List.range_succ_eq_map, List.map_cons, List.map_map]
    simp only [Function.iterate_zero, id_eq, Nat.add_zero]
    congr 1
    refine List.map_congr_left fun j _ => ?_
    simp only [Function.comp_apply, Nat.succ_eq_add_one]
    rw [Function.iterate_succ_apply, show i + (j + 1) = i + 1 + j by omega]

/-- C7: on a termination signal with a pool of `N` known endpoints and
cursor `c`, the shutdown path performs exactly `N` de-registration
attempts; attempt `i` runs with cursor `inc32^[i] c` (the cursor advances
by one between consecutive attempts, so the attempts follow rotation order
from the cursor's position at signal time); the outcomes — any pattern of
failures — have no influence on the attempts performed; and afterwards the
process exits with status 0. -/
theorem handleSignal_deregisters_every_endpoint (t : Client) (outcome : Nat → Bool) :
    (t.handleSignalTerm outcome).1.length = t.serviceUrls.length ∧
    (t.handleSignalTerm outcome).1 =
      (List.range t.serviceUrls.length).map (fun i => (inc32^[i] t.pickServerUrlIdx, outcome i)) ∧
    (t.handleSignalTerm outcome).2.1 = inc32^[t.serviceUrls.length] t.pickServerUrlIdx ∧
    (t.handleSignalTerm outcome).2.2 = 0 := by
  unfold Client.handleSignalTerm
  rw [deRegisterLoop_spec outcome t.serviceUrls.length 0 t.pickServerUrlIdx]
  simp

/-! ### C8: registration fan-out across the pool -/

/-- `Client.registerWithAllEureka` (client.go:213-218):
`for _ = range t.serviceUrls { go t.registerWithEureka(); t.pickServerUrlIdx.Inc() }`.
Returns the number of `registerWithEureka` goroutines launched and the
final cursor. -/
def registerWithAllLoop : List String → Int → Nat × Int
  | [], c => (0, c)
  | _ :: rest, c =>
    let r := registerWithAllLoop rest (inc32 c)
    (r.1 + 1, r.2)

def Client.registerWithAllEureka (t : Client) : Nat × Int :=
  registerWithAllLoop t.serviceUrls t.pickServerUrlIdx

theorem registerWithAllLoop_spec :
    ∀ (pool : List String) (c : Int),
      registerWithAllLoop pool c = (pool.length, inc32^[pool.length] c) := by
  intro pool
  induction pool with
  | nil => intro c; simp [registerWithAllLoop]
  | cons u rest ih =>
    intro c
    rw [registerWithAllLoop, ih (inc32 c)]
    simp only [List.length_cons, Prod.mk.injEq, true_and]
    rw [← Function.iterate_succ_apply]

/-- C8: `registerWithAllEureka` launches exactly one `registerWithEureka`
attempt per endpoint in the pool and advances the rotation cursor once per
endpoint: starting from a cursor holding `wrap32 k` (the value after `k`
increments from start), the call returns with the cursor at
`wrap32 (k + N)` — increased by exactly the pool length `N` in the 32-bit
cursor arithmetic. -/
theorem registerWithAll_launches_per_endpoint (t : Client) (k : Nat)
    (hc : t.pickServerUrlIdx = wrap32 (k : Int)) :
    t.registerWithAllEureka =
      (t.serviceUrls.length, wrap32 ((k : Int) + (t.serviceUrls.length : Int))) := by
  unfold Client.registerWithAllEureka
  rw [registerWithAllLoop_spec t.serviceUrls t.pickServerUrlIdx, hc,
    iterate_inc32_wrap32 t.serviceUrls.length (k : Int)]

/-- Witness for C8: three endpoints, cursor at 4 — three launches and the
cursor lands on 7. -/
theorem registerWithAll_launches_per_endpoint_witness :
    client4.registerWithAllEureka = (3, 7) :=
  (registerWithAll_launches_per_endpoint client4 4 (by decide)).trans (by decide)

/-! ### C10: `Register(appId, port)` builds the descriptor -/

/-- C10: for every client, application id and port, `Register` installs a
descriptor whose application field is the id, whose status is STARTING,
whose port is the given port with `Enabled = "true"`, and whose vip and
secure-vip addresses are the lowercased id; it overwrites whatever
descriptor was set before (the client's `instanceVo` becomes exactly this
fresh descriptor) and returns the same client: every other field is
unchanged. -/
theorem Register_builds_descriptor (t : Client) (appId : String) (port : Int) :
    ∃ vo : InstanceVo,
      (t.Register appId port).instanceVo = some vo ∧
      vo.App = appId ∧
      vo.Status = STATUS_STARTING ∧
      vo.Port = { Value := port, Enabled := "true" } ∧
      vo.VipAddress = appId.toLower ∧
      vo.SecureVipAddress = appId.toLower ∧
      (t.Register appId port).config = t.config ∧
      (t.Register appId port).serviceUrls = t.serviceUrls ∧
      (t.Register appId port).registryApps = t.registryApps ∧
      (t.Register appId port).pickServerUrlIdx = t.pickServerUrlIdx :=
  ⟨_, rfl, rfl, rfl, rfl, rfl, rfl, rfl, rfl, rfl, rfl⟩

end Eureka
